import Mathlib

/-!
Shallow embedding of the smart-home-backend realtime command-channel client
(`src/agent/local_agent.py`) and of the file-watch alternative transport
(`src/desktop_agent.py`), together with theorems settling the specification
claims about them.

Conventions:
* Python values produced by `json.loads` are modelled by the inductive `Json`.
* Python exceptions are modelled by `Option`/explicit outcome constructors:
  a `none`/`raised` result marks the place where the Python code raises.
* `base64.b64decode(s + "==")` is modelled after CPython's lenient
  (non-strict) `binascii.a2b_base64`, and `bytes.decode('utf-8')` by a strict
  UTF-8 decoder.  Machine-level details that cannot occur on the inputs used
  here (surrogate pairs in `\u` escapes, float JSON numbers) make the model
  parser fail where Python would succeed; every claim that quantifies over
  successful parses is conditioned on the model's own success.
-/

namespace SmartHome

/-- Python values as produced by `json.loads`: `None`, booleans, (integer)
numbers, strings, lists and dicts (assoc lists in insertion order, later
duplicate keys shadowing earlier ones as in Python). -/
inductive Json where
  | null : Json
  | bool : Bool → Json
  | num : Int → Json
  | str : String → Json
  | arr : List Json → Json
  | obj : List (String × Json) → Json

/-- Python truthiness (`bool(v)`) of a decoded JSON value: `None`, `False`,
`0`, `""`, `[]` and `{}` are falsy, everything else truthy. -/
def pyTruthy : Json → Bool
  | .null => false
  | .bool b => b
  | .num n => n != 0
  | .str s => s != ""
  | .arr [] => false
  | .arr (_ :: _) => true
  | .obj [] => false
  | .obj (_ :: _) => true

/-- Whether a decoded value is a string (`isinstance(v, str)`). -/
def Json.isStr : Json → Bool
  | .str _ => true
  | _ => false

/-- Python `dict.get(k)`: value of the last binding of `k` (later duplicate
keys shadow earlier ones), `none` when absent. -/
def dictGet (l : List (String × Json)) (k : String) : Option Json :=
  match l with
  | [] => none
  | (k', v) :: rest =>
    match dictGet rest k with
    | some v' => some v'
    | none => if k' == k then some v else none

/-- `d.get(k)` on a decoded value: only dicts support `.get`; on any other
value Python raises `AttributeError`, modelled as `none` in the outer
`Option`. -/
def Json.pyGet : Json → String → Option (Option Json)
  | .obj l, k => some (dictGet l k)
  | _, _ => none

/-! ## Base64: `base64.b64decode(s + "==")`

CPython's `base64.b64decode` first requires the `str` argument to be pure
ASCII, then runs the lenient `binascii.a2b_base64`:
characters outside the base64 alphabet are discarded; `'='` is ignored while
fewer than two data characters of the current quad have been seen, and once
two or more have been seen, enough `'='` to complete the quad ends the
decode, keeping the bytes emitted so far; reaching the end of the input with
exactly one leftover data character is an error. -/

/-- Value of a standard-alphabet base64 character, `none` for every other
character (which the lenient decoder discards). -/
def b64val (c : Char) : Option Nat :=
  if 'A' ≤ c ∧ c ≤ 'Z' then some (c.toNat - 'A'.toNat)
  else if 'a' ≤ c ∧ c ≤ 'z' then some (c.toNat - 'a'.toNat + 26)
  else if '0' ≤ c ∧ c ≤ '9' then some (c.toNat - '0'.toNat + 52)
  else if c = '+' then some 62
  else if c = '/' then some 63
  else none

/-- Core loop of lenient `a2b_base64` over the characters of the input.
State: `quadPos` (data characters seen in the current quad), `acc` (pending
bits), `pads` (padding characters seen since the last data character), and
the output bytes accumulated in reverse. -/
def a2bBase64Loop : List Char → Nat → Nat → Nat → List Nat → Option (List Nat)
  | [], quadPos, _, _, out =>
    if quadPos = 1 then none else some out.reverse
  | c :: rest, quadPos, acc, pads, out =>
    if c = '=' then
      if 2 ≤ quadPos then
        if 4 ≤ quadPos + (pads + 1) then some out.reverse
        else a2bBase64Loop rest quadPos acc (pads + 1) out
      else a2bBase64Loop rest quadPos acc pads out
    else
      match b64val c with
      | none => a2bBase64Loop rest quadPos acc pads out
      | some v =>
        match quadPos with
        | 0 => a2bBase64Loop rest 1 v 0 out
        | 1 => a2bBase64Loop rest 2 ((acc * 64 + v) % 16) 0 (((acc * 64 + v) / 16) :: out)
        | 2 => a2bBase64Loop rest 3 ((acc * 64 + v) % 4) 0 (((acc * 64 + v) / 4) :: out)
        | _ => a2bBase64Loop rest 0 0 0 ((acc * 64 + v) :: out)

/-- `base64.b64decode(s + "==")` as executed by the agent: ASCII check, then
the lenient decode of `s` with two padding characters appended. -/
def b64decodePadded (s : String) : Option (List Nat) :=
  if s.toList.any (fun c => 128 ≤ c.toNat) then none
  else a2bBase64Loop (s.toList ++ ['=', '=']) 0 0 0 []

/-! ## Strict UTF-8 decoding (`bytes.decode('utf-8')`) -/

/-- Whether a byte is a UTF-8 continuation byte `0x80..0xBF`. -/
def utf8Cont (b : Nat) : Bool := 0x80 ≤ b ∧ b ≤ 0xBF

/-- Strict UTF-8 decoding of a byte list, rejecting truncated sequences,
stray continuation bytes, overlong encodings and surrogate code points,
exactly as Python's `bytes.decode('utf-8')`. -/
def utf8Decode : List Nat → Option (List Char)
  | [] => some []
  | b :: rest =>
    if b < 0x80 then
      match utf8Decode rest with
      | some cs => some (Char.ofNat b :: cs)
      | none => none
    else if 0xC2 ≤ b ∧ b ≤ 0xDF then
      match rest with
      | b1 :: rest' =>
        if utf8Cont b1 then
          match utf8Decode rest' with
          | some cs => some (Char.ofNat ((b - 0xC0) * 64 + (b1 - 0x80)) :: cs)
          | none => none
        else none
      | [] => none
    else if 0xE0 ≤ b ∧ b ≤ 0xEF then
      match rest with
      | b1 :: b2 :: rest' =>
        let lo1 : Nat := if b = 0xE0 then 0xA0 else 0x80
        let hi1 : Nat := if b = 0xED then 0x9F else 0xBF
        if (lo1 ≤ b1 ∧ b1 ≤ hi1) ∧ utf8Cont b2 then
          match utf8Decode rest' with
          | some cs =>
            some (Char.ofNat ((b - 0xE0) * 4096 + (b1 - 0x80) * 64 + (b2 - 0x80)) :: cs)
          | none => none
        else none
      | _ => none
    else if 0xF0 ≤ b ∧ b ≤ 0xF4 then
      match rest with
      | b1 :: b2 :: b3 :: rest' =>
        let lo1 : Nat := if b = 0xF0 then 0x90 else 0x80
        let hi1 : Nat := if b = 0xF4 then 0x8F else 0xBF
        if (lo1 ≤ b1 ∧ b1 ≤ hi1) ∧ utf8Cont b2 ∧ utf8Cont b3 then
          match utf8Decode rest' with
          | some cs =>
            some (Char.ofNat
              ((b - 0xF0) * 262144 + (b1 - 0x80) * 4096 + (b2 - 0x80) * 64 + (b3 - 0x80)) :: cs)
          | none => none
        else none
      | _ => none
    else none

/-! ## JSON parsing (`json.loads`)

A recursive-descent parser for the JSON grammar accepted by Python's
`json.loads`, with two documented restrictions that only shrink the success
set: numbers with a fraction or exponent part and `\u` escapes in the
surrogate range are rejected by the model (Python would produce floats and
surrogate characters, which `Json`/`Char` does not represent). -/

/-- Skip JSON whitespace (space, tab, newline, carriage return). -/
def jsonWs (cs : List Char) : List Char :=
  cs.dropWhile (fun c => c = ' ' ∨ c = '\t' ∨ c = '\n' ∨ c = '\r')

/-- Value of a hex digit. -/
def hexVal (c : Char) : Option Nat :=
  if '0' ≤ c ∧ c ≤ '9' then some (c.toNat - '0'.toNat)
  else if 'a' ≤ c ∧ c ≤ 'f' then some (c.toNat - 'a'.toNat + 10)
  else if 'A' ≤ c ∧ c ≤ 'F' then some (c.toNat - 'A'.toNat + 10)
  else none

/-- Single-character JSON string escapes. -/
def escChar : Char → Option Char
  | '"' => some '"'
  | '\\' => some '\\'
  | '/' => some '/'
  | 'b' => some (Char.ofNat 8)
  | 'f' => some (Char.ofNat 12)
  | 'n' => some '\n'
  | 'r' => some '\r'
  | 't' => some '\t'
  | _ => none

/-- Parse the body of a JSON string after the opening quote, returning the
content and the input remaining after the closing quote.  Raw control
characters are rejected (Python's strict mode), `\u` escapes outside the
surrogate range are decoded. -/
def parseStringBody : List Char → Option (List Char × List Char)
  | [] => none
  | c :: rest =>
    if c = '"' then some ([], rest)
    else if c = '\\' then
      match rest with
      | 'u' :: h1 :: h2 :: h3 :: h4 :: rest' =>
        match hexVal h1, hexVal h2, hexVal h3, hexVal h4 with
        | some v1, some v2, some v3, some v4 =>
          let n := ((v1 * 16 + v2) * 16 + v3) * 16 + v4
          if 0xD800 ≤ n ∧ n ≤ 0xDFFF then none
          else
            match parseStringBody rest' with
            | some (s, r) => some (Char.ofNat n :: s, r)
            | none => none
        | _, _, _, _ => none
      | e :: rest' =>
        match escChar e with
        | some ec =>
          match parseStringBody rest' with
          | some (s, r) => some (ec :: s, r)
          | none => none
        | none => none
      | [] => none
    else if c.toNat < 0x20 then none
    else
      match parseStringBody rest with
      | some (s, r) => some (c :: s, r)
      | none => none

/-- Numeric value of a digit list. -/
def natOfDigits (ds : List Char) : Nat :=
  ds.foldl (fun acc c => acc * 10 + (c.toNat - '0'.toNat)) 0

/-- Parse an unsigned JSON integer (`0` or a nonzero digit followed by
digits); fails on a following `.`/`e`/`E` (float, outside the model). -/
def parseNum (cs : List Char) : Option (Nat × List Char) :=
  match cs with
  | c :: rest =>
    if c = '0' then
      match rest with
      | d :: _ => if d = '.' ∨ d = 'e' ∨ d = 'E' then none else some (0, rest)
      | [] => some (0, [])
    else if c.isDigit then
      let digits := (c :: rest).takeWhile Char.isDigit
      let rest' := (c :: rest).dropWhile Char.isDigit
      match rest' with
      | d :: _ =>
        if d = '.' ∨ d = 'e' ∨ d = 'E' then none else some (natOfDigits digits, rest')
      | [] => some (natOfDigits digits, [])
    else none
  | [] => none

mutual

/-- Parse one JSON value (after skipping leading whitespace), returning it
with the unconsumed input.  `fuel` only bounds recursion depth; the top
entry point supplies more fuel than any input can consume. -/
def parseValue : Nat → List Char → Option (Json × List Char)
  | 0, _ => none
  | fuel + 1, cs =>
    match jsonWs cs with
    | '{' :: rest =>
      match jsonWs rest with
      | '}' :: rest' => some (.obj [], rest')
      | cs' =>
        match parseMembers fuel cs' with
        | some (l, r) => some (.obj l, r)
        | none => none
    | '[' :: rest =>
      match jsonWs rest with
      | ']' :: rest' => some (.arr [], rest')
      | cs' =>
        match parseItems fuel cs' with
        | some (l, r) => some (.arr l, r)
        | none => none
    | '"' :: rest =>
      match parseStringBody rest with
      | some (s, rest') => some (.str (String.mk s), rest')
      | none => none
    | 't' :: 'r' :: 'u' :: 'e' :: rest => some (.bool true, rest)
    | 'f' :: 'a' :: 'l' :: 's' :: 'e' :: rest => some (.bool false, rest)
    | 'n' :: 'u' :: 'l' :: 'l' :: rest => some (.null, rest)
    | '-' :: rest =>
      match parseNum rest with
      | some (n, rest') => some (.num (-(n : Int)), rest')
      | none => none
    | cs' =>
      match parseNum cs' with
      | some (n, rest') => some (.num (n : Int), rest')
      | none => none

/-- Parse the members of a JSON object, positioned at the first key's
opening quote; returns them in source order with the input after `}`. -/
def parseMembers : Nat → List Char → Option (List (String × Json) × List Char)
  | 0, _ => none
  | fuel + 1, cs =>
    match cs with
    | '"' :: rest =>
      match parseStringBody rest with
      | some (k, rest') =>
        match jsonWs rest' with
        | ':' :: rest2 =>
          match parseValue fuel rest2 with
          | some (v, rest3) =>
            match jsonWs rest3 with
            | ',' :: rest4 =>
              match parseMembers fuel (jsonWs rest4) with
              | some (l, r) => some ((String.mk k, v) :: l, r)
              | none => none
            | '}' :: rest4 => some ([(String.mk k, v)], rest4)
            | _ => none
          | none => none
        | _ => none
      | none => none
    | _ => none

/-- Parse the items of a JSON array, positioned at the first item. -/
def parseItems : Nat → List Char → Option (List Json × List Char)
  | 0, _ => none
  | fuel + 1, cs =>
    match parseValue fuel cs with
    | some (v, rest) =>
      match jsonWs rest with
      | ',' :: rest2 =>
        match parseItems fuel rest2 with
        | some (l, r) => some (v :: l, r)
        | none => none
      | ']' :: rest2 => some ([v], rest2)
      | _ => none
    | none => none

end

/-- `json.loads`: parse a complete JSON document; trailing non-whitespace is
an error ("Extra data"). -/
def json_loads (s : String) : Option Json :=
  match parseValue (s.length + 1) s.toList with
  | some (v, rest) => if jsonWs rest = [] then some v else none
  | none => none

/-! ## The Token Identity Extractor (`get_user_id_from_jwt`) -/

/-- Python `str.split(sep)` for a one-character separator: split at every
occurrence, keeping empty fields (`''.split('.') == ['']`). -/
def pySplitChar (sep : Char) : List Char → List Char → List String
  | [], acc => [String.mk acc.reverse]
  | c :: rest, acc =>
    if c = sep then String.mk acc.reverse :: pySplitChar sep rest []
    else pySplitChar sep rest (c :: acc)

/-- `get_user_id_from_jwt` (src/agent/local_agent.py lines 121-134): take
`jwt.split('.')[1]`, base64-decode it with `"=="` appended, UTF-8 decode,
`json.loads`, read `.get('sub')` and fail on a falsy result; every failure
along the way is caught by `except Exception` and returns `None` (`none`).
The Python function returns the decoded `sub` value unchanged, so the model
returns `Option Json`. -/
def get_user_id_from_jwt (jwt : String) : Option Json :=
  match (pySplitChar '.' jwt.toList []).get? 1 with
  | none => none
  | some payload_b64 =>
    match b64decodePadded payload_b64 with
    | none => none
    | some bytes =>
      match utf8Decode bytes with
      | none => none
      | some chars =>
        match json_loads (String.mk chars) with
        | none => none
        | some j =>
          match j.pyGet "sub" with
          | none => none
          | some none => none
          | some (some v) => if pyTruthy v then some v else none

/-! ## `ACTION_MAP` and the Command Dispatcher -/

/-- The three Action Executor capabilities registered in `ACTION_MAP`
(src/agent/local_agent.py lines 115-119). -/
inductive Capability where
  | change_wallpaper
  | play_music
  | speak_message
deriving DecidableEq

/-- `ACTION_MAP`: action strings mapped to capabilities. -/
def ACTION_MAP : List (String × Capability) :=
  [("change_wallpaper", .change_wallpaper),
   ("play_music", .play_music),
   ("speak_message", .speak_message)]

/-- One Action Executor invocation: `ACTION_MAP[action](payload)` with the
command's decoded `payload` value (`none` models Python `None` from a
missing field). -/
structure ExecCall where
  action : String
  payload : Option Json

/-- Outcome of processing one received message inside the receive loop:
either the loop continues (`ok`, with the executor calls made, whether the
successful-subscription log fired, and whether an unknown-action warning
fired), or an exception escaped (`raised`, with the calls already made
before it). -/
inductive StepOutcome where
  | ok (calls : List ExecCall) (subscribed : Bool) (warned : Bool)
  | raised (calls : List ExecCall)

/-- Body of the receive loop for one decoded message
(src/agent/local_agent.py lines 188-205).  `execRaises a p` tells whether
the invoked Action Executor capability raises an exception past its own
handlers on this call.  Faithful to Python evaluation order:
* a non-dict message raises `AttributeError` at `message.get("event")`;
* for `event == "phx_reply"`, a present non-dict `payload` raises at
  `.get("status")`;
* for `event == "postgres_changes"`, a missing `payload` raises `KeyError`,
  a non-dict one raises at `["type"]`, a missing `"type"`/`"data"` raises
  `KeyError`, a non-dict `"data"` raises at `.get("action")`, and an
  unhashable decoded `action` (list/dict) raises `TypeError` in
  `action in ACTION_MAP`;
* otherwise an action in `ACTION_MAP` is invoked exactly once with the
  command's `payload`, and any other action only logs a warning. -/
def processFrame (execRaises : String → Option Json → Bool) (message : Json) : StepOutcome :=
  match message with
  | .obj fields =>
    let event := dictGet fields "event"
    let eventIs : String → Bool := fun name =>
      match event with
      | some (.str s) => s == name
      | _ => false
    match
      (if eventIs "phx_reply" then
        match (dictGet fields "payload").getD (.obj []) with
        | .obj pl =>
          some (match dictGet pl "status" with
                | some (.str st) => st == "ok"
                | _ => false)
        | _ => none
      else some false) with
    | none => .raised []
    | some subscribed =>
      if eventIs "postgres_changes" then
        match dictGet fields "payload" with
        | none => .raised []
        | some (.obj plf) =>
          match dictGet plf "type" with
          | none => .raised []
          | some (.str ty) =>
            if ty == "INSERT" then
              match dictGet plf "data" with
              | none => .raised []
              | some (.obj cmdf) =>
                let action := dictGet cmdf "action"
                let payload := dictGet cmdf "payload"
                match action with
                | some (.arr _) => .raised []
                | some (.obj _) => .raised []
                | some (.str a) =>
                  if (ACTION_MAP.find? (fun p => p.1 == a)).isSome then
                    if execRaises a payload then .raised [⟨a, payload⟩]
                    else .ok [⟨a, payload⟩] subscribed false
                  else .ok [] subscribed true
                | _ => .ok [] subscribed true
              | some _ => .raised []
            else .ok [] subscribed false
          | some _ => .ok [] subscribed false
        | some _ => .raised []
      else .ok [] subscribed false
  | _ => .raised []

/-- Run the receive loop over the received raw messages in order, stopping
at the first escaping exception.  Returns the executor calls made, the
number of successful-subscription logs, the number of unknown-action
warnings, and whether an exception escaped the loop. -/
def runMessages (execRaises : String → Option Json → Bool) :
    List String → List ExecCall × Nat × Nat × Bool
  | [] => ([], 0, 0, false)
  | m :: rest =>
    match json_loads m with
    | none => ([], 0, 0, true)
    | some j =>
      match processFrame execRaises j with
      | .raised calls => (calls, 0, 0, true)
      | .ok calls sub warn =>
        let r := runMessages execRaises rest
        (calls ++ r.1, (if sub then 1 else 0) + r.2.1,
          (if warn then 1 else 0) + r.2.2.1, r.2.2.2)

/-- Result of one Channel Session (one `async with websockets.connect`
block): the executor calls made, log counters, whether an exception escaped
the receive loop (to the supervisor's handlers), and whether the
`heartbeat_task.cancel()` on the normal exit path was reached. -/
structure SessionResult where
  calls : List ExecCall
  subscribedLogs : Nat
  unknownWarnings : Nat
  errored : Bool
  heartbeatCancelled : Bool

/-- One session (lines 160-208): the handshake has been sent; then the
receive loop runs over `msgs`; afterwards the transport either ends the
`async for` cleanly (`endsClean`, reaching `heartbeat_task.cancel()`) or
raises `ConnectionClosed` out of it.  An exception escaping the loop skips
the `cancel()` line. -/
def runSession (execRaises : String → Option Json → Bool)
    (msgs : List String) (endsClean : Bool) : SessionResult :=
  let r := runMessages execRaises msgs
  if r.2.2.2 then ⟨r.1, r.2.1, r.2.2.1, true, false⟩
  else if endsClean then ⟨r.1, r.2.1, r.2.2.1, false, true⟩
  else ⟨r.1, r.2.1, r.2.2.1, true, false⟩

/-! ## The Reconnection Supervisor (`listen_to_supabase`) -/

/-- The join request sent right after the transport connects (lines
166-180): constant topic `"realtime:public:commands"`, event `"phx_join"`,
the bearer token in the payload's `access_token`, and the current value of
the supervisor's `ref_counter` as `ref`. -/
structure SubscribeMsg where
  topic : String
  event : String
  access_token : String
  ref : String

/-- Build the `subscribe_msg` dict for a given `ref_counter` value. -/
def subscribe_msg (user_jwt : String) (refCounter : Nat) : SubscribeMsg :=
  ⟨"realtime:public:commands", "phx_join", user_jwt, toString refCounter⟩

/-- What one iteration of the supervisor's `while True` encounters:
either `websockets.connect` raises, or a session runs with the given
received messages and end condition. -/
inductive Attempt where
  | connectFail
  | session (msgs : List String) (endsClean : Bool)

/-- Trace record of one iteration of the supervisor loop: the handshake
sent (none when the connect failed), the session result, and the
`await asyncio.sleep(5)` backoff that ends every iteration. -/
structure IterResult where
  handshake : Option SubscribeMsg
  session : Option SessionResult
  backoff : Nat

/-- The supervisor loop (lines 156-215) with the process-lifetime
`ref_counter` threaded through: initialised to 1 once, incremented after
each handshake send, never reset between attempts.  Every exception from
connect or session is caught by the `except` clauses, and every iteration
ends with the fixed 5-second sleep. -/
def listenIters (user_jwt : String) (execRaises : String → Option Json → Bool) :
    Nat → List Attempt → List IterResult
  | _, [] => []
  | refCounter, .connectFail :: rest =>
    ⟨none, none, 5⟩ :: listenIters user_jwt execRaises refCounter rest
  | refCounter, .session msgs endsClean :: rest =>
    ⟨some (subscribe_msg user_jwt refCounter),
      some (runSession execRaises msgs endsClean), 5⟩ ::
      listenIters user_jwt execRaises (refCounter + 1) rest

/-- `listen_to_supabase` run over a finite prefix of connection attempts;
`ref_counter = 1` is established once, before the loop. -/
def listen_to_supabase_run (user_jwt : String)
    (execRaises : String → Option Json → Bool) (attempts : List Attempt) :
    List IterResult :=
  listenIters user_jwt execRaises 1 attempts

/-! ## The Heartbeat Scheduler (`send_heartbeat`) -/

/-- The heartbeat loop (lines 136-152), with time measured in seconds from
the first send and the connection closing at `closeTime`: while the send at
time `t` happens strictly before `closeTime` it succeeds, carries
`str(ref_counter)` as its `ref`, and is followed by `ref_counter += 1` and
a 30-second sleep; the first send at `t ≥ closeTime` raises
`ConnectionClosed`, which the loop's own handler catches, breaking out.
Returns the successful sends `(time, ref)` and the time of the failing
send (when heartbeat activity ceases).  `gas` only bounds the number of
iterations; `closeTime + 1` always suffices since each iteration advances
`t` by 30. -/
def hbLoop (closeTime : Nat) : Nat → Nat → Nat → List (Nat × String) × Nat
  | 0, _, t => ([], t)
  | gas + 1, refCounter, t =>
    if t < closeTime then
      let r := hbLoop closeTime gas (refCounter + 1) (t + 30)
      ((t, toString refCounter) :: r.1, r.2)
    else ([], t)

/-- `send_heartbeat` for a connection closing at `closeTime`, as an
`Except`: a `.error` would model an exception escaping to the owner, but
the only exception in the loop body is the `ConnectionClosed` of a send on
the closed connection, which the `except websockets.exceptions.ConnectionClosed`
handler catches, so the task always ends with `.ok` (its own `ref_counter`
starting at 1). -/
def send_heartbeat_run (closeTime : Nat) :
    Except String (List (Nat × String) × Nat) :=
  .ok (hbLoop closeTime (closeTime + 1) 1 0)

/-! ## The file-watch alternative transport (`src/desktop_agent.py`) -/

/-- One poll's view of the sentinel file `/tmp/media_player.command`:
absent, or present with a modification time and raw content. -/
inductive FileObs where
  | absent
  | present (mtime : Nat) (content : String)

/-- Python whitespace for `str.strip()` (ASCII). -/
def isPyWs (c : Char) : Bool :=
  c = ' ' ∨ c = '\t' ∨ c = '\n' ∨ c = '\r' ∨ c = Char.ofNat 11 ∨ c = Char.ofNat 12

/-- Python `str.strip()`. -/
def pyStrip (s : String) : String :=
  String.mk (((s.toList.dropWhile isPyWs).reverse.dropWhile isPyWs).reverse)

/-- `last_command_time` as initialised at startup (lines 36-39): the
sentinel's mtime when it already exists, else 0. -/
def watchInit : FileObs → Nat
  | .absent => 0
  | .present m _ => m

/-- One iteration of the watch loop (lines 41-55): an absent file is "no
command yet" (state unchanged, nothing dispatched); a present file
dispatches its stripped content to `play_media` only when its mtime is
strictly newer than `last_command_time`, which is then advanced (even when
the stripped content is empty and nothing is dispatched). -/
def watchStep (last : Nat) (obs : FileObs) : Nat × Option String :=
  match obs with
  | .absent => (last, none)
  | .present m c =>
    if last < m then (m, if pyStrip c ≠ "" then some (pyStrip c) else none)
    else (last, none)

/-- The watch loop over a finite sequence of polls, collecting the
dispatches as `(mtime, dispatched content)` pairs. -/
def watchRun (last : Nat) : List FileObs → List (Nat × String)
  | [] => []
  | obs :: rest =>
    let s := watchStep last obs
    (match s.2 with
     | some c =>
       (match obs with
        | .present m _ => [(m, c)]
        | .absent => [])
     | none => []) ++ watchRun s.1 rest

/-! ## Helper definitions used by the theorem statements -/

/-- Whether a supervisor iteration got a transport connection (and hence
sent a handshake). -/
def Attempt.isSession : Attempt → Bool
  | .connectFail => false
  | .session _ _ => true

/-- Number of successful connections among the first `i` attempts. -/
def sessionsBefore (attempts : List Attempt) (i : Nat) : Nat :=
  ((attempts.take i).filter Attempt.isSession).length

/-- The executor calls a single received raw message gives rise to, whether
or not an exception follows them. -/
def stepCalls (execRaises : String → Option Json → Bool) (m : String) :
    List ExecCall :=
  match json_loads m with
  | none => []
  | some j =>
    match processFrame execRaises j with
    | .ok calls _ _ => calls
    | .raised calls => calls

/-- A `postgres_changes` INSERT frame carrying the inserted command row
`{action, payload}` (wire format of spec §6). -/
def commandFrame (a : String) (p : Json) : Json :=
  .obj [("event", .str "postgres_changes"),
        ("payload", .obj [("type", .str "INSERT"),
                          ("data", .obj [("action", .str a), ("payload", p)])])]

/-- Executor behaviour in which no capability ever raises. -/
def execQuiet : String → Option Json → Bool := fun _ _ => false

/-- Executor behaviour in which the `speak_message` capability raises. -/
def execBlowsOnSpeak : String → Option Json → Bool := fun a _ => a == "speak_message"

/-- A concrete raw `speak_message` command frame. -/
def speakMsgStr : String :=
  "\x7b\"event\":\"postgres_changes\",\"payload\":\x7b\"type\":\"INSERT\",\"data\":\x7b\"action\":\"speak_message\",\"payload\":\"hello\"\x7d\x7d\x7d"

/-- A concrete raw `play_music` command frame. -/
def playMsgStr : String :=
  "\x7b\"event\":\"postgres_changes\",\"payload\":\x7b\"type\":\"INSERT\",\"data\":\x7b\"action\":\"play_music\",\"payload\":\"a.mp3\"\x7d\x7d\x7d"

/-- A concrete subscription acknowledgement frame. -/
def ackMsgStr : String :=
  "\x7b\"event\":\"phx_reply\",\"payload\":\x7b\"status\":\"ok\"\x7d\x7d"

/-! # Theorems -/

/-- Claim C2 (counterexample). Two credential tokens whose embedded subjects
differ (`"u1"` vs `"u2"`) lead to join requests naming the *same* topic
`"realtime:public:commands"`, so the subscription topic is not a
subject-separating function of the token's subject as the claim states. -/
theorem C2_counterexample :
    get_user_id_from_jwt "h.eyJzdWIiOiJ1MSJ9.s" = some (Json.str "u1")
    ∧ get_user_id_from_jwt "h.eyJzdWIiOiJ1MiJ9.s" = some (Json.str "u2")
    ∧ ("u1" : String) ≠ "u2"
    ∧ (subscribe_msg "h.eyJzdWIiOiJ1MSJ9.s" 1).topic
        = (subscribe_msg "h.eyJzdWIiOiJ1MiJ9.s" 1).topic :=
  ⟨rfl, rfl, by decide, rfl⟩

/-- Claim C2 (amended). The topic named in the join request is the constant
`"realtime:public:commands"`: it does not depend on the credential token
(whose subject is never extracted — `get_user_id_from_jwt` is not called on
the connection path), and the token itself travels in the join payload's
`access_token` field only. -/
theorem C2_prop (jwt jwt' : String) (r r' : Nat) :
    (subscribe_msg jwt r).topic = "realtime:public:commands"
    ∧ (subscribe_msg jwt r).topic = (subscribe_msg jwt' r').topic
    ∧ (subscribe_msg jwt r).access_token = jwt :=
  ⟨rfl, rfl, rfl⟩

/-- Claim C5 (counterexample). A bearer token with two dot-separated segments
(count ≠ 3) is accepted rather than rejected: the code indexes
`jwt.split('.')[1]` and never checks the segment count, so
`"h.eyJzdWIiOiJ1MSJ9"` yields subject `"u1"` instead of the claimed
`IdentityError` outcome (`None`). -/
theorem C5_counterexample :
    (pySplitChar '.' ("h.eyJzdWIiOiJ1MSJ9".toList) []).length = 2
    ∧ get_user_id_from_jwt "h.eyJzdWIiOiJ1MSJ9" = some (Json.str "u1") :=
  ⟨rfl, rfl⟩

/-- Claim C5 (amended). The extractor uses only the *second* dot-separated
segment and ignores the total segment count (any token with at least one
dot has index 1): when that segment base64-decodes, UTF-8-decodes and
parses to a dict with a truthy `sub` value, exactly that value is returned;
a token with no dot (no index 1), a failing decode at any stage, a
non-dict payload, and an absent or falsy `sub` all produce the
`IdentityError` outcome (`None`). -/
theorem C5_prop (jwt seg : String) (bs : List Nat) (cs : List Char)
    (j : Json) (flds : List (String × Json)) (v : Json) :
    ((pySplitChar '.' jwt.toList []).get? 1 = none → get_user_id_from_jwt jwt = none)
    ∧ ((pySplitChar '.' jwt.toList []).get? 1 = some seg →
        b64decodePadded seg = none → get_user_id_from_jwt jwt = none)
    ∧ ((pySplitChar '.' jwt.toList []).get? 1 = some seg →
        b64decodePadded seg = some bs → utf8Decode bs = none →
        get_user_id_from_jwt jwt = none)
    ∧ ((pySplitChar '.' jwt.toList []).get? 1 = some seg →
        b64decodePadded seg = some bs → utf8Decode bs = some cs →
        json_loads (String.mk cs) = none → get_user_id_from_jwt jwt = none)
    ∧ ((pySplitChar '.' jwt.toList []).get? 1 = some seg →
        b64decodePadded seg = some bs → utf8Decode bs = some cs →
        json_loads (String.mk cs) = some j → j.pyGet "sub" = none →
        get_user_id_from_jwt jwt = none)
    ∧ ((pySplitChar '.' jwt.toList []).get? 1 = some seg →
        b64decodePadded seg = some bs → utf8Decode bs = some cs →
        json_loads (String.mk cs) = some (.obj flds) → dictGet flds "sub" = none →
        get_user_id_from_jwt jwt = none)
    ∧ ((pySplitChar '.' jwt.toList []).get? 1 = some seg →
        b64decodePadded seg = some bs → utf8Decode bs = some cs →
        json_loads (String.mk cs) = some (.obj flds) → dictGet flds "sub" = some v →
        pyTruthy v = false → get_user_id_from_jwt jwt = none)
    ∧ ((pySplitChar '.' jwt.toList []).get? 1 = some seg →
        b64decodePadded seg = some bs → utf8Decode bs = some cs →
        json_loads (String.mk cs) = some (.obj flds) → dictGet flds "sub" = some v →
        pyTruthy v = true → get_user_id_from_jwt jwt = some v) := by
  refine ⟨?_, ?_, ?_, ?_, ?_, ?_, ?_, ?_⟩
  · intro h1
    simp only [get_user_id_from_jwt, h1]
  · intro h1 h2
    simp only [get_user_id_from_jwt, h1, h2]
  · intro h1 h2 h3
    simp only [get_user_id_from_jwt, h1, h2, h3]
  · intro h1 h2 h3 h4
    simp only [get_user_id_from_jwt, h1, h2, h3, h4]
  · intro h1 h2 h3 h4 h5
    simp only [get_user_id_from_jwt, h1, h2, h3, h4, h5]
  · intro h1 h2 h3 h4 h5
    simp only [get_user_id_from_jwt, h1, h2, h3, h4, Json.pyGet, h5]
  · intro h1 h2 h3 h4 h5 h6
    simp only [get_user_id_from_jwt, h1, h2, h3, h4, Json.pyGet, h5, h6]
    simp
  · intro h1 h2 h3 h4 h5 h6
    simp only [get_user_id_from_jwt, h1, h2, h3, h4, Json.pyGet, h5, h6]
    simp

/-- Claim C5 (witness). Concrete instances of the amended behaviour: a token
without dots fails; a well-formed three-segment token with subject `"u1"`
returns `"u1"`; a three-segment token whose payload has an empty `sub`
fails. -/
theorem C5_witness :
    get_user_id_from_jwt "noDots" = none
    ∧ get_user_id_from_jwt "h.eyJzdWIiOiJ1MSJ9.s" = some (Json.str "u1")
    ∧ get_user_id_from_jwt "h.eyJzdWIiOiIifQ==.s" = none := by
  refine ⟨?_, ?_, ?_⟩
  · exact (C5_prop "noDots" "" [] [] .null [] .null).1 (by rfl)
  · exact (C5_prop "h.eyJzdWIiOiJ1MSJ9.s" "eyJzdWIiOiJ1MSJ9"
      [123, 34, 115, 117, 98, 34, 58, 34, 117, 49, 34, 125]
      ("\x7b\"sub\":\"u1\"\x7d".toList)
      (.obj [("sub", .str "u1")]) [("sub", .str "u1")]
      (.str "u1")).2.2.2.2.2.2.2 (by rfl) (by rfl) (by rfl) (by rfl) (by rfl) (by rfl)
  · exact (C5_prop "h.eyJzdWIiOiIifQ==.s" "eyJzdWIiOiIifQ=="
      [123, 34, 115, 117, 98, 34, 58, 34, 34, 125]
      ("\x7b\"sub\":\"\"\x7d".toList)
      (.obj [("sub", .str "")]) [("sub", .str "")]
      (.str "")).2.2.2.2.2.2.1 (by rfl) (by rfl) (by rfl) (by rfl) (by rfl) (by rfl)

/-- Claim C10 (counterexample). On a token whose payload is `{"sub": 1}`, the
extractor returns the JSON number `1` — a truthy but non-string value —
contradicting the claim (and the function's own `-> str | None`
annotation) that the result is always a non-empty subject *string* or
`None`. -/
theorem C10_counterexample :
    get_user_id_from_jwt "h.eyJzdWIiOjF9.s" = some (Json.num 1)
    ∧ (Json.num 1).isStr = false :=
  ⟨rfl, rfl⟩

/-- Claim C10 (amended). `get_user_id_from_jwt` is total (every failure path
is caught and becomes `None`, modelled by the function being a total map
into `Option`), and any returned subject is a *truthy* decoded value — in
particular never the empty string — but it need not be a string. -/
theorem C10_prop (s : String) (v : Json)
    (h : get_user_id_from_jwt s = some v) :
    pyTruthy v = true ∧ v ≠ Json.str "" := by
  unfold get_user_id_from_jwt at h
  repeat' split at h
  all_goals simp at h
  all_goals subst h
  all_goals exact ⟨by assumption, fun hveq => by subst hveq; simp_all [pyTruthy]⟩

/-- Claim C10 (witness). The amended theorem applied to a concrete token with
subject `"u1"`. -/
theorem C10_witness : pyTruthy (Json.str "u1") = true :=
  (C10_prop "h.eyJzdWIiOiJ1MSJ9.s" (Json.str "u1") (by rfl)).1

/-- The supervisor trace has exactly one iteration per attempt: the loop
never stops early, whatever the attempts' outcomes. -/
theorem listenIters_length (jwt : String) (o : String → Option Json → Bool) :
    ∀ (attempts : List Attempt) (refc : Nat),
      (listenIters jwt o refc attempts).length = attempts.length := by
  intro attempts
  induction attempts with
  | nil => intro refc; rfl
  | cons a rest ih =>
    intro refc
    cases a with
    | connectFail => simp [listenIters, ih]
    | session msgs ec => simp [listenIters, ih]

/-- No attempts precede index 0. -/
theorem sessionsBefore_zero (attempts : List Attempt) : sessionsBefore attempts 0 = 0 := rfl

/-- Unfolding `sessionsBefore` one attempt at a time. -/
theorem sessionsBefore_succ (a : Attempt) (rest : List Attempt) (i : Nat) :
    sessionsBefore (a :: rest) (i + 1)
      = (if a.isSession then 1 else 0) + sessionsBefore rest i := by
  simp only [sessionsBefore, List.take_succ_cons, List.filter_cons]
  split <;> simp [List.length_cons] <;> omega

/-- Characterisation of the supervisor trace at every index: one iteration
per attempt, a handshake exactly for the connected ones, carrying the
process-lifetime ref counter advanced once per prior successful
connection. -/
theorem listenIters_get? (jwt : String) (o : String → Option Json → Bool) :
    ∀ (attempts : List Attempt) (refc i : Nat),
      (listenIters jwt o refc attempts).get? i
        = (attempts.get? i).map (fun a =>
            match a with
            | .connectFail => ⟨none, none, 5⟩
            | .session msgs ec =>
              ⟨some (subscribe_msg jwt (refc + sessionsBefore attempts i)),
                some (runSession o msgs ec), 5⟩) := by
  intro attempts
  induction attempts with
  | nil => intro refc i; simp [listenIters]
  | cons a rest ih =>
    intro refc i
    cases i with
    | zero =>
      cases a with
      | connectFail => simp [listenIters]
      | session msgs ec => simp [listenIters, sessionsBefore_zero]
    | succ n =>
      cases a with
      | connectFail =>
        simp only [listenIters, List.get?_cons_succ]
        rw [ih]
        cases hr : rest.get? n with
        | none => simp
        | some b =>
          cases b <;> simp [sessionsBefore_succ, Attempt.isSession]
      | session msgs ec =>
        simp only [listenIters, List.get?_cons_succ]
        rw [ih]
        cases hr : rest.get? n with
        | none => simp
        | some b =>
          cases b <;> simp [sessionsBefore_succ, Attempt.isSession, Nat.add_assoc]

/-- Closed form of the heartbeat loop: starting at time `t` with enough
gas, it performs `n` sends 30 seconds apart with consecutive refs, where
`n` is exactly the number of send instants strictly before `closeTime`,
and the failing send (where the loop stops) happens at `t + 30 * n`. -/
theorem hbLoop_closed (ct : Nat) :
    ∀ (gas t refc : Nat), ct ≤ t + 30 * gas →
      ∃ n, n ≤ gas
        ∧ hbLoop ct gas refc t
            = ((List.range n).map (fun k => (t + 30 * k, toString (refc + k))), t + 30 * n)
        ∧ (∀ k, k < n → t + 30 * k < ct)
        ∧ ct ≤ t + 30 * n := by
  intro gas
  induction gas with
  | zero =>
    intro t refc h
    exact ⟨0, Nat.le_refl 0, by simp [hbLoop],
      fun k hk => absurd hk (Nat.not_lt_zero k), by simpa using h⟩
  | succ g ih =>
    intro t refc h
    by_cases hlt : t < ct
    · obtain ⟨n, hn, heq, hall, hstop⟩ := ih (t + 30) (refc + 1) (by omega)
      refine ⟨n + 1, by omega, ?_, ?_, by omega⟩
      · simp only [hbLoop, if_pos hlt, heq]
        refine Prod.ext ?_ ?_
        · show (t, toString refc) :: _ = _
          rw [List.range_succ_eq_map, List.map_cons, List.map_map]
          congr 1
          have hfun : ((fun k => (t + 30 * k, toString (refc + k))) ∘ Nat.succ)
              = (fun k => (t + 30 + 30 * k, toString (refc + 1 + k))) := by
            funext k
            simp only [Function.comp_apply]
            exact Prod.ext (by omega) (congrArg toString (by omega))
          rw [hfun]
        · show t + 30 + 30 * n = t + 30 * (n + 1)
          omega
      · intro k hk
        cases k with
        | zero => simpa using hlt
        | succ m => have := hall m (by omega); omega
    · exact ⟨0, by omega, by simp [hbLoop, hlt],
        fun k hk => absurd hk (Nat.not_lt_zero k), by omega⟩

/-- The heartbeat send list at every index: the `j`-th send happens at time
`30 * j`, carries ref `str(1 + j)`, and exists exactly when `30 * j` is
strictly before the connection closes. -/
theorem hbLoop_at (ct j : Nat) :
    (hbLoop ct (ct + 1) 1 0).1.get? j
      = if 30 * j < ct then some (30 * j, toString (1 + j)) else none := by
  obtain ⟨n, hn, heq, hall, hstop⟩ := hbLoop_closed ct (ct + 1) 0 1 (by omega)
  rw [heq]
  rw [List.get?_map]
  by_cases hj : j < n
  · rw [List.get?_range hj]
    have h30 : 30 * j < ct := by have := hall j hj; omega
    simp [h30]
  · have hnone : (List.range n).get? j = none := by
      rw [List.get?_eq_none]
      simpa using Nat.le_of_not_lt hj
    rw [hnone]
    have hge : ¬ 30 * j < ct := by omega
    simp [hge]

/-- Claim C1 (counterexample). Over two consecutive successful connections,
the first handshake carries ref `"1"` but the handshake after the
reconnect carries `"2"`, not a reset `"1"`: `ref_counter` is initialised
outside the reconnect loop and carried over.  Moreover the first heartbeat
of a session carries ref `"1"`, the same reference already used by that
session's handshake: heartbeats draw from their own counter, not from the
handshake's. -/
theorem C1_counterexample :
    (listen_to_supabase_run "tok" execQuiet
        [.session [] true, .session [] true]).map
          (fun it => it.handshake.map SubscribeMsg.ref)
      = [some "1", some "2"]
    ∧ ("2" : String) ≠ "1"
    ∧ (hbLoop 45 46 1 0).1.map Prod.snd = ["1", "2"] :=
  ⟨rfl, by decide, rfl⟩

/-- Claim C1 (amended). The handshake ref of the `i`-th supervisor iteration
is `str(1 + number of successful connections before it)` — a
process-lifetime counter that starts at 1 and is *not* reset on reconnect —
while each session's heartbeat refs come from a separate per-session
counter: the `j`-th heartbeat of any session carries ref `str(j + 1)`,
starting again at `"1"` every session. -/
theorem C1_prop (jwt : String) (o : String → Option Json → Bool)
    (attempts : List Attempt) (i : Nat) (r : IterResult) (a : Attempt)
    (ct j : Nat) (p : Nat × String)
    (hr : (listen_to_supabase_run jwt o attempts).get? i = some r)
    (ha : attempts.get? i = some a)
    (hp : (hbLoop ct (ct + 1) 1 0).1.get? j = some p) :
    r.handshake.map SubscribeMsg.ref
      = (if a.isSession then some (toString (1 + sessionsBefore attempts i)) else none)
    ∧ p.2 = toString (j + 1) := by
  constructor
  · rw [listen_to_supabase_run, listenIters_get?, ha] at hr
    cases a with
    | connectFail =>
      have := Option.some.inj hr
      subst this
      rfl
    | session msgs ec =>
      have := Option.some.inj hr
      subst this
      simp [Attempt.isSession, subscribe_msg]
  · rw [hbLoop_at] at hp
    split at hp
    · have := Option.some.inj hp
      subst this
      exact congrArg toString (by omega)
    · exact absurd hp (by simp)

/-- Claim C1 (witness). The amended theorem at a concrete two-connection run
(second handshake ref) and a concrete heartbeat trace (second send). -/
theorem C1_witness :
    ((⟨some (subscribe_msg "tok" 2), some (runSession execQuiet [] true), 5⟩ :
          IterResult).handshake.map SubscribeMsg.ref
        = (if (Attempt.session [] true).isSession
            then some (toString (1 + sessionsBefore
              [Attempt.session [] true, Attempt.session [] true] 1))
            else none))
    ∧ ((30, "2") : Nat × String).2 = toString (1 + 1) :=
  C1_prop "tok" execQuiet [.session [] true, .session [] true] 1
    ⟨some (subscribe_msg "tok" 2), some (runSession execQuiet [] true), 5⟩
    (.session [] true) 45 1 (30, "2") (by rfl) (by rfl) (by rfl)

/-- Every recorded supervisor iteration ends with the fixed 5-second
backoff. -/
theorem listenIters_backoff (jwt : String) (o : String → Option Json → Bool) :
    ∀ (attempts : List Attempt) (refc : Nat) (r : IterResult),
      r ∈ listenIters jwt o refc attempts → r.backoff = 5 := by
  intro attempts
  induction attempts with
  | nil => intro refc r h; simp [listenIters] at h
  | cons a rest ih =>
    intro refc r h
    cases a with
    | connectFail =>
      simp only [listenIters] at h
      rcases List.mem_cons.mp h with h1 | h2
      · subst h1; rfl
      · exact ih _ _ h2
    | session msgs ec =>
      simp only [listenIters] at h
      rcases List.mem_cons.mp h with h1 | h2
      · subst h1; rfl
      · exact ih _ _ h2

/-- Claim C6. The supervisor loop never terminates on its own: over any
finite sequence of attempt outcomes (connect failures, clean closes,
session errors alike) it performs exactly one iteration per attempt —
every exception is absorbed by its `except` handlers — and every
iteration ends with the same constant 5-second backoff before
reconnecting.  The only exit not represented here is external
cancellation, which interrupts the process from outside the loop. -/
theorem C6_prop (jwt : String) (o : String → Option Json → Bool)
    (attempts : List Attempt) (r : IterResult)
    (hr : r ∈ listen_to_supabase_run jwt o attempts) :
    (listen_to_supabase_run jwt o attempts).length = attempts.length
    ∧ r.backoff = 5 :=
  ⟨listenIters_length jwt o attempts 1, listenIters_backoff jwt o attempts 1 r hr⟩

/-- Claim C6 (witness). The supervisor outlives a failed connect and an
errored session, with the 5-second backoff after each. -/
theorem C6_witness :
    (listen_to_supabase_run "tok" execQuiet [.connectFail, .session [] false]).length
        = ([Attempt.connectFail, Attempt.session [] false] : List Attempt).length
    ∧ (⟨none, none, 5⟩ : IterResult).backoff = 5 :=
  C6_prop "tok" execQuiet [.connectFail, .session [] false] ⟨none, none, 5⟩
    (by simp [listen_to_supabase_run, listenIters])

/-- Claim C8. While the connection is alive the Heartbeat Scheduler sends a
keep-alive every 30 seconds (the `j`-th send at time `30 * j`, with
consecutive refs, and a send at every 30-second instant strictly before
the close); the first send after the connection closes at `closeTime`
fails, the scheduler's own handler catches it (the task returns `.ok`,
no error escapes to the owning session), and heartbeat activity ceases at
that failing send, strictly less than one 30-second cycle after the
close, on every path. -/
theorem C8_prop (ct j : Nat) (p : Nat × String)
    (hp : (hbLoop ct (ct + 1) 1 0).1.get? j = some p) :
    p = (30 * j, toString (j + 1))
    ∧ 30 * j < ct
    ∧ (∀ k, 30 * k < ct →
        (hbLoop ct (ct + 1) 1 0).1.get? k = some (30 * k, toString (1 + k)))
    ∧ ct ≤ (hbLoop ct (ct + 1) 1 0).2
    ∧ (hbLoop ct (ct + 1) 1 0).2 < ct + 30
    ∧ send_heartbeat_run ct = Except.ok (hbLoop ct (ct + 1) 1 0) := by
  obtain ⟨n, hn, heq, hall, hstop⟩ := hbLoop_closed ct (ct + 1) 0 1 (by omega)
  rw [hbLoop_at] at hp
  refine ⟨?_, ?_, ?_, ?_, ?_, rfl⟩
  · split at hp
    · have := Option.some.inj hp
      subst this
      exact Prod.ext rfl (congrArg toString (by omega))
    · exact absurd hp (by simp)
  · split at hp
    · assumption
    · exact absurd hp (by simp)
  · intro k hk
    rw [hbLoop_at, if_pos hk]
  · rw [heq]
    omega
  · rw [heq]
    rcases Nat.eq_zero_or_pos n with h0 | hpos
    · subst h0
      show (0 : Nat) + 30 * 0 < ct + 30
      omega
    · have := hall (n - 1) (by omega)
      show (0 : Nat) + 30 * n < ct + 30
      omega

/-- Claim C8 (witness). The theorem at a connection closing at `t = 45`: the
second heartbeat is sent at `t = 30` with ref `"2"`, before the close. -/
theorem C8_witness :
    ((30, "2") : Nat × String) = (30 * 1, toString (1 + 1)) ∧ 30 * 1 < 45 :=
  ⟨(C8_prop 45 1 (30, "2") (by rfl)).1, (C8_prop 45 1 (30, "2") (by rfl)).2.1⟩

/-- When no exception escapes the receive loop, the executor calls it makes
are exactly the concatenation, in arrival order, of each message's calls. -/
theorem runMessages_calls_of_clean (o : String → Option Json → Bool) :
    ∀ msgs : List String, (runMessages o msgs).2.2.2 = false →
      (runMessages o msgs).1 = msgs.bind (stepCalls o) := by
  intro msgs
  induction msgs with
  | nil => intro _; rfl
  | cons m rest ih =>
    intro h
    cases hm : json_loads m with
    | none => simp [runMessages, hm] at h
    | some j =>
      cases hf : processFrame o j with
      | raised calls => simp [runMessages, hm, hf] at h
      | ok calls sub warn =>
        have h' : (runMessages o rest).2.2.2 = false := by
          simpa [runMessages, hm, hf] using h
        simp [runMessages, hm, hf, stepCalls, ih h', List.cons_bind]

/-- Claim C4. Dispatch of a received `CommandEvent`: when the `action` string
is a key of `ACTION_MAP` (a case-sensitive string lookup), exactly one
Action Executor call is made, carrying exactly the event's payload
(whether or not the executor then fails); when it is not, the frame
produces an unknown-action warning and zero executor calls; and over a
whole session whose frames raise nothing, the calls made are exactly the
per-frame calls concatenated in arrival order. -/
theorem C4_prop (o : String → Option Json → Bool) (a : String) (p : Json)
    (msgs : List String)
    (hclean : (runMessages o msgs).2.2.2 = false) :
    ((ACTION_MAP.find? (fun q => q.1 == a)).isSome = true →
        processFrame o (commandFrame a p)
          = (if o a (some p) then .raised [⟨a, some p⟩]
             else .ok [⟨a, some p⟩] false false))
    ∧ ((ACTION_MAP.find? (fun q => q.1 == a)).isSome = false →
        processFrame o (commandFrame a p) = .ok [] false true
        ∧ stepCalls o = stepCalls o)
    ∧ (runMessages o msgs).1 = msgs.bind (stepCalls o) := by
  refine ⟨?_, ?_, runMessages_calls_of_clean o msgs hclean⟩
  · intro hfound
    simp [processFrame, commandFrame, dictGet, hfound]
  · intro hnotfound
    exact ⟨by simp [processFrame, commandFrame, dictGet, hnotfound], rfl⟩

/-- Claim C4 (witness). A recognised command dispatches exactly once with its
payload; an unrecognised one dispatches nothing; a two-command session
dispatches both in arrival order. -/
theorem C4_witness :
    (runMessages execQuiet [speakMsgStr, playMsgStr]).1
        = [speakMsgStr, playMsgStr].bind (stepCalls execQuiet)
    ∧ processFrame execQuiet (commandFrame "turn_on_lights" (Json.str "x"))
        = .ok [] false true
    ∧ processFrame execQuiet (commandFrame "speak_message" (Json.str "hello"))
        = (if execQuiet "speak_message" (some (Json.str "hello"))
           then .raised [⟨"speak_message", some (Json.str "hello")⟩]
           else .ok [⟨"speak_message", some (Json.str "hello")⟩] false false) :=
  ⟨(C4_prop execQuiet "x" .null [speakMsgStr, playMsgStr] (by rfl)).2.2,
   ((C4_prop execQuiet "turn_on_lights" (Json.str "x") [] (by rfl)).2.1 (by rfl)).1,
   (C4_prop execQuiet "speak_message" (Json.str "hello") [] (by rfl)).1 (by rfl)⟩

/-- Claim C3 (counterexample). A malformed (non-JSON) frame does terminate
the session, contrary to the claim: `json.loads` raises inside the
receive loop, no per-message handler exists, the session ends in the
errored state (skipping `heartbeat_task.cancel()`), and the following
frame — a subscription ack that would have been logged — is never
processed. -/
theorem C3_counterexample :
    json_loads "\x7b" = none
    ∧ runSession execQuiet ["\x7b", ackMsgStr] true = ⟨[], 0, 0, true, false⟩
    ∧ (runSession execQuiet [ackMsgStr] true).subscribedLogs = 1 :=
  ⟨rfl, rfl, rfl⟩

/-- Claim C3 (amended). A malformed frame raises a decode fault that escapes
the receive loop and terminates the session (the remaining frames are
dropped); the Reconnection Supervisor catches it, so the *process*
survives and runs the next attempt after the backoff.  Well-formed JSON
object frames whose `event` is a string other than `"phx_reply"` and
`"postgres_changes"` (the `Unrecognized` variants) are genuinely dropped:
the loop continues exactly as if the frame had not arrived. -/
theorem C3_prop (o : String → Option Json → Bool) (s : String)
    (rest : List String) (endsClean : Bool) (flds : List (String × Json))
    (e : String) (jwt : String) (attempts : List Attempt) :
    (json_loads s = none →
        runMessages o (s :: rest) = ([], 0, 0, true)
        ∧ (runSession o (s :: rest) endsClean).errored = true)
    ∧ (json_loads s = some (.obj flds) →
        dictGet flds "event" = some (.str e) →
        e ≠ "phx_reply" → e ≠ "postgres_changes" →
        runMessages o (s :: rest) = runMessages o rest)
    ∧ (listen_to_supabase_run jwt o
          (.session (s :: rest) endsClean :: attempts)).length
        = attempts.length + 1 := by
  refine ⟨?_, ?_, ?_⟩
  · intro hm
    exact ⟨by simp [runMessages, hm], by simp [runSession, runMessages, hm]⟩
  · intro hm hev hne1 hne2
    have hpf : processFrame o (.obj flds) = .ok [] false false := by
      simp [processFrame, hev, hne1, hne2]
    simp [runMessages, hm, hpf]
  · simp [listen_to_supabase_run, listenIters, listenIters_length]

/-- Claim C3 (witness). The amended theorem at a malformed frame followed by
an ack, and at a concrete unrecognized frame. -/
theorem C3_witness :
    (runMessages execQuiet ["\x7b", ackMsgStr] = ([], 0, 0, true)
        ∧ (runSession execQuiet ["\x7b", ackMsgStr] true).errored = true)
    ∧ runMessages execQuiet ["\x7b\"event\":\"weird\"\x7d"]
        = runMessages execQuiet [] :=
  ⟨(C3_prop execQuiet "\x7b" [ackMsgStr] true [] "" "t" []).1 (by rfl),
   (C3_prop execQuiet "\x7b\"event\":\"weird\"\x7d" [] true
      [("event", .str "weird")] "weird" "t" []).2.1
      (by rfl) (by rfl) (by decide) (by decide)⟩

/-- Claim C7 (counterexample). The dispatch does not catch executor
failures: when the `speak_message` capability raises, the session ends in
the errored state with exactly the one failing call made, and the next
inbound command (`play_music`) is never processed — whereas with a
non-failing executor both commands are dispatched. -/
theorem C7_counterexample :
    execBlowsOnSpeak "speak_message" (some (Json.str "hello")) = true
    ∧ runSession execBlowsOnSpeak [speakMsgStr, playMsgStr] true
        = ⟨[⟨"speak_message", some (Json.str "hello")⟩], 0, 0, true, false⟩
    ∧ (runSession execQuiet [speakMsgStr, playMsgStr] true).calls
        = [⟨"speak_message", some (Json.str "hello")⟩,
           ⟨"play_music", some (Json.str "a.mp3")⟩] :=
  ⟨rfl, rfl, rfl⟩

/-- Claim C7 (amended). An exception escaping an invoked Action Executor
capability is not caught by the dispatch: the call is made, the exception
tears down the Session (errored, later frames unprocessed,
`heartbeat_task.cancel()` skipped), and only the Reconnection Supervisor
contains it — the process survives and reconnects after the backoff.
(The executor bodies themselves catch their expected errors internally,
so most failures never escape; this theorem is about those that do.) -/
theorem C7_prop (o : String → Option Json → Bool) (a : String) (p : Json)
    (m : String) (rest : List String) (endsClean : Bool)
    (jwt : String) (attempts : List Attempt)
    (hfound : (ACTION_MAP.find? (fun q => q.1 == a)).isSome = true)
    (hraise : o a (some p) = true)
    (hm : json_loads m = some (commandFrame a p)) :
    processFrame o (commandFrame a p) = .raised [⟨a, some p⟩]
    ∧ runSession o (m :: rest) endsClean = ⟨[⟨a, some p⟩], 0, 0, true, false⟩
    ∧ (listen_to_supabase_run jwt o
          (.session (m :: rest) endsClean :: attempts)).length
        = attempts.length + 1 := by
  have hpf : processFrame o (commandFrame a p) = .raised [⟨a, some p⟩] := by
    simp [processFrame, commandFrame, dictGet, hfound, hraise]
  refine ⟨hpf, ?_, ?_⟩
  · simp [runSession, runMessages, hm, hpf]
  · simp [listen_to_supabase_run, listenIters, listenIters_length]

/-- Claim C7 (witness). The amended theorem at the concrete failing
`speak_message` command. -/
theorem C7_witness :
    processFrame execBlowsOnSpeak (commandFrame "speak_message" (Json.str "hello"))
        = .raised [⟨"speak_message", some (Json.str "hello")⟩]
    ∧ runSession execBlowsOnSpeak [speakMsgStr, playMsgStr] true
        = ⟨[⟨"speak_message", some (Json.str "hello")⟩], 0, 0, true, false⟩
    ∧ (listen_to_supabase_run "tok" execBlowsOnSpeak
          [.session [speakMsgStr, playMsgStr] true]).length
        = ([] : List Attempt).length + 1 :=
  C7_prop execBlowsOnSpeak "speak_message" (Json.str "hello") speakMsgStr
    [playMsgStr] true "tok" [] (by rfl) (by rfl) (by rfl)

/-- Every dispatch recorded by the watch loop has a modification time
strictly above the `last_command_time` the loop started with. -/
theorem watchRun_mem_lt : ∀ (trace : List FileObs) (last : Nat) (d : Nat × String),
    d ∈ watchRun last trace → last < d.1 := by
  intro trace
  induction trace with
  | nil => intro last d h; simp [watchRun] at h
  | cons obs rest ih =>
    intro last d h
    cases obs with
    | absent =>
      simp only [watchRun, watchStep, List.nil_append] at h
      exact ih last d h
    | present m c =>
      by_cases hlt : last < m
      · by_cases hc : pyStrip c ≠ ""
        · simp only [watchRun, watchStep, if_pos hlt, if_pos hc,
            List.singleton_append] at h
          rcases List.mem_cons.mp h with h1 | h2
          · subst h1; exact hlt
          · exact Nat.lt_trans hlt (ih m d h2)
        · simp only [watchRun, watchStep, if_pos hlt, if_neg hc,
            List.nil_append] at h
          exact Nat.lt_trans hlt (ih m d h)
      · simp only [watchRun, watchStep, if_neg hlt, List.nil_append] at h
        exact ih last d h

/-- The modification times of the dispatches recorded by the watch loop
are strictly increasing: no observation is ever dispatched twice. -/
theorem watchRun_pairwise : ∀ (trace : List FileObs) (last : Nat),
    List.Pairwise (fun x y : Nat × String => x.1 < y.1) (watchRun last trace) := by
  intro trace
  induction trace with
  | nil => intro last; simp [watchRun]
  | cons obs rest ih =>
    intro last
    cases obs with
    | absent => simpa only [watchRun, watchStep, List.nil_append] using ih last
    | present m c =>
      by_cases hlt : last < m
      · by_cases hc : pyStrip c ≠ ""
        · simp only [watchRun, watchStep, if_pos hlt, if_pos hc,
            List.singleton_append]
          exact List.Pairwise.cons (fun y hy => watchRun_mem_lt rest m y hy) (ih m)
        · simpa only [watchRun, watchStep, if_pos hlt, if_neg hc,
            List.nil_append] using ih m
      · simpa only [watchRun, watchStep, if_neg hlt, List.nil_append] using ih last

/-- Claim C9. In the file-watch transport, every dispatch happens at a
modification time strictly greater than the last-observed value — above
the initial `last_command_time` and strictly increasing from dispatch to
dispatch, so the same observed content is never reprocessed — and an
absent sentinel file is "no command yet": the poll leaves the state
unchanged, dispatches nothing, and raises nothing. -/
theorem C9_prop (last : Nat) (trace : List FileObs) (d : Nat × String)
    (hd : d ∈ watchRun last trace) :
    last < d.1
    ∧ List.Pairwise (fun x y : Nat × String => x.1 < y.1) (watchRun last trace)
    ∧ (∀ st, watchStep st .absent = (st, none)) :=
  ⟨watchRun_mem_lt trace last d hd, watchRun_pairwise trace last, fun _ => rfl⟩

/-- Claim C9 (witness). A concrete trace with an absent poll, a dispatch at
mtime 5, an equal-mtime write that is not re-dispatched, and a later
dispatch at mtime 9. -/
theorem C9_witness :
    (0 : Nat) < ((5, "a") : Nat × String).1 :=
  (C9_prop 0 [.absent, .present 5 " a ", .present 5 "b", .present 9 "c"]
    (5, "a") (by decide)).1

end SmartHome
